import Mathlib

/-!
Verification of the MAI-AdBrowser layout, viewport and animation engine.

The definitions below are a shallow embedding of the JavaScript sources:
* src/js/pivot-app.js : uniform grid layout (applyGridLayout), grouped layout
  (applyGroupedLayout), viewport operations (zoom, constrainPan, fitToViewport)
  and faceted filtering (applyFilters);
* src/js/pivot-animator.js : the FLIP transition engine (flip, fadeOut, fadeIn)
  and its running-animations registry.

JavaScript numbers are modelled by rationals; Math.floor is Int.floor,
Math.ceil of a natural quotient is natural ceiling division, and the
JavaScript falsy-or idiom (a || b) on numbers is modelled by testing
against zero.
-/

namespace AdBrowser

/-! ## Uniform grid layout, pivot-app.js applyGridLayout (lines 464-540)

The search loop (lines 487-509) tries every column count cols in [1, N],
derives rows = Math.ceil(N / cols), a candidate cell size, an admissibility
test (30 <= cellSize <= 200) and a wasted-space score, and keeps the
strictly best candidate seen so far (so the first candidate wins exact
ties). bestFit starts at Infinity, modelled by an Option that starts none.
-/

/-- Rows for a given column count: Math.ceil(totalItems / cols), on naturals. -/
def gridRows (N cols : ℕ) : ℕ := (N + cols - 1) / cols

/-- Candidate cell size for a column count, lines 491-493: the minimum of the
width-derived and height-derived cell sizes, each net of the item gaps. -/
def gridCellSize (cw ch gap : ℚ) (N cols : ℕ) : ℚ :=
  min ((cw - ((cols : ℚ) - 1) * gap) / cols)
    ((ch - ((gridRows N cols : ℚ) - 1) * gap) / (gridRows N cols))

/-- Wasted space of a candidate, lines 499-501. -/
def gridWaste (cw ch gap : ℚ) (N cols : ℕ) : ℚ :=
  |cw - ((cols : ℚ) * gridCellSize cw ch gap N cols + ((cols : ℚ) - 1) * gap)| +
    |ch - ((gridRows N cols : ℚ) * gridCellSize cw ch gap N cols +
      ((gridRows N cols : ℚ) - 1) * gap)|

/-- Admissibility of a candidate column count: the negation of the skip test
of line 496, cellSize < 30 or cellSize > 200. -/
def GridAdm (cw ch gap : ℚ) (N cols : ℕ) : Prop :=
  ¬(gridCellSize cw ch gap N cols < 30 ∨ 200 < gridCellSize cw ch gap N cols)

instance (cw ch gap : ℚ) (N cols : ℕ) : Decidable (GridAdm cw ch gap N cols) := by
  unfold GridAdm
  infer_instance

/-- Search state of the loop: bestCellSize, bestCols, bestRows, bestFit,
with none standing for the initial Infinity. -/
structure GridBest where
  cellSize : ℚ
  cols : ℕ
  rows : ℕ
  fit : Option ℚ
deriving DecidableEq, Repr

/-- Initial search state, lines 481-484. -/
def gridInit : GridBest := ⟨60, 1, 1, none⟩

/-- Comparison against the current best fit; anything beats Infinity. -/
def fitLt (w : ℚ) : Option ℚ → Prop
  | none => True
  | some b => w < b

instance (w : ℚ) (o : Option ℚ) : Decidable (fitLt w o) := by
  cases o <;> simp only [fitLt] <;> infer_instance

/-- One iteration of the search loop, lines 487-509. -/
def gridStep (cw ch gap : ℚ) (N : ℕ) (b : GridBest) (cols : ℕ) : GridBest :=
  if gridCellSize cw ch gap N cols < 30 ∨ 200 < gridCellSize cw ch gap N cols then b
  else if fitLt (gridWaste cw ch gap N cols) b.fit then
    ⟨gridCellSize cw ch gap N cols, cols, gridRows N cols,
      some (gridWaste cw ch gap N cols)⟩
  else b

/-- The whole search: fold the loop body over cols = 1, ..., N. -/
def gridSearch (cw ch gap : ℚ) (N : ℕ) : GridBest :=
  (List.range' 1 N).foldl (gridStep cw ch gap N) gridInit

/-- Final positions, lines 511-535: the chosen cell size is floored, and item
index i is placed at column i % cols, row i / cols of a grid centered in the
container. Each entry is (x, y, size). -/
def applyGridLayout (cw ch gap : ℚ) (N : ℕ) : List (ℚ × ℚ × ℚ) :=
  if N = 0 then []
  else
    let b := gridSearch cw ch gap N
    let cellSize : ℚ := ((⌊b.cellSize⌋ : ℤ) : ℚ)
    let gridW := (b.cols : ℚ) * cellSize + ((b.cols : ℚ) - 1) * gap
    let gridH := (b.rows : ℚ) * cellSize + ((b.rows : ℚ) - 1) * gap
    let ox := max 0 ((cw - gridW) / 2)
    let oy := max 0 ((ch - gridH) / 2)
    (List.range N).map fun i =>
      (ox + ((i % b.cols : ℕ) : ℚ) * (cellSize + gap),
        oy + ((i / b.cols : ℕ) : ℚ) * (cellSize + gap), cellSize)

/-- Loop invariant of the grid search: after processing the candidate list l,
either nothing admissible has been seen and the state is still the initial
one, or the state records an admissible candidate from l of minimal waste
among the admissible members of l, the earliest such in case of ties. -/
def GridInv (cw ch gap : ℚ) (N : ℕ) (l : List ℕ) (b : GridBest) : Prop :=
  (b = gridInit ∧ ∀ c ∈ l, ¬GridAdm cw ch gap N c) ∨
  (b.cols ∈ l ∧ GridAdm cw ch gap N b.cols ∧
    b.cellSize = gridCellSize cw ch gap N b.cols ∧
    b.rows = gridRows N b.cols ∧
    b.fit = some (gridWaste cw ch gap N b.cols) ∧
    ∀ c ∈ l, GridAdm cw ch gap N c →
      gridWaste cw ch gap N b.cols ≤ gridWaste cw ch gap N c ∧
      (gridWaste cw ch gap N c = gridWaste cw ch gap N b.cols → b.cols ≤ c))

/-! ## Viewport controller, pivot-app.js

PivotApp.zoom (lines 655-672) clamps the scale, recomputes the pan so the
container center stays fixed, and then calls constrainPan. constrainPan
(lines 683-721) centers on an axis when the scaled content fits and clamps
otherwise. fitToViewport (lines 723-754) computes a fitting scale and a
centering translation.
-/

/-- Viewport state: this.scale, this.panOffset.x, this.panOffset.y. -/
structure Viewport where
  scale : ℚ
  panX : ℚ
  panY : ℚ
deriving DecidableEq, Repr

/-- Core update of PivotApp.zoom, lines 656-667: new scale clamped into
[minScale, maxScale], pan recomputed around the container center. -/
def zoomCore (minScale maxScale cw ch factor : ℚ) (v : Viewport) : Viewport :=
  let oldScale := v.scale
  let scale := min maxScale (max minScale (v.scale * factor))
  let centerX := cw / 2
  let centerY := ch / 2
  let scaleChange := scale / oldScale
  ⟨scale, centerX - (centerX - v.panX) * scaleChange,
    centerY - (centerY - v.panY) * scaleChange⟩

/-- One axis of constrainPan, lines 699-720, with the same clamping steps as
the source (the expression maxX === 0 ? 0 : 0 evaluates to 0); scaledContent
stands for the content size times the current scale. -/
def constrainAxis (container scaledContent x : ℚ) : ℚ :=
  if scaledContent ≤ container then (container - scaledContent) / 2
  else
    let minX := min 0 (container - scaledContent)
    let x1 := max minX (min 0 x)
    let x2 := if 0 < x1 then 0 else x1
    if x2 < container - scaledContent then container - scaledContent else x2

/-- PivotApp.constrainPan, lines 683-721, acting on both axes independently. -/
def constrainPan (cw ch contentW contentH : ℚ) (v : Viewport) : Viewport :=
  ⟨v.scale, constrainAxis cw (contentW * v.scale) v.panX,
    constrainAxis ch (contentH * v.scale) v.panY⟩

/-- PivotApp.zoom, lines 655-672: the core update followed by constrainPan
(line 669), which reads the content size at the new scale. -/
def zoom (minScale maxScale cw ch contentW contentH factor : ℚ) (v : Viewport) : Viewport :=
  constrainPan cw ch contentW contentH (zoomCore minScale maxScale cw ch factor v)

/-- JavaScript a || b on numbers, which takes b exactly when a is 0 (or NaN);
used by the measurement fallback chains of lines 729-730 and by the FLIP
delta divisions of lines 62-63 of pivot-animator.js. -/
def jsOr (a b : ℚ) : ℚ := if a = 0 then b else a

/-- PivotApp.fitToViewport, lines 723-754, as a function of the scale bounds,
the container size, and the style/offset measurements feeding the fallback
chain contentW = styleW or offsetW or containerW. Result: (scale, panX,
panY). -/
def fitToViewport (minScale maxScale cw ch styleW offsetW styleH offsetH : ℚ) : ℚ × ℚ × ℚ :=
  let contentW := jsOr (jsOr styleW offsetW) cw
  let contentH := jsOr (jsOr styleH offsetH) ch
  let rawScale := if contentW = 0 ∨ contentH = 0 then 1
    else min ((cw - 40) / contentW) ((ch - 40) / contentH)
  let scale := max minScale (min maxScale rawScale)
  (scale, (cw - contentW * scale) / 2, (ch - contentH * scale) / 2)

/-! ## FLIP engine, pivot-animator.js PivotAnimator.flip (lines 23-115) -/

/-- Geometry record captured for one element: position, size and effective
opacity, as read in the First phase (lines 29-41) and the Last phase
(lines 56-57). -/
structure Geom where
  x : ℚ
  y : ℚ
  width : ℚ
  height : ℚ
  opacity : ℚ
deriving DecidableEq, Repr

/-- Skip test of lines 59-69: the deltas are computed exactly as in the
source, including the division by (last.width || 1) and
(last.height || 1), and compared against the visibility thresholds. -/
def flipSkip (first last : Geom) : Bool :=
  decide (|first.x - last.x| < (1 : ℚ) / 2) &&
  decide (|first.y - last.y| < (1 : ℚ) / 2) &&
  decide (|first.width / jsOr last.width 1 - 1| < (1 : ℚ) / 100) &&
  decide (|first.height / jsOr last.height 1 - 1| < (1 : ℚ) / 100) &&
  decide (|first.opacity - last.opacity| < (1 : ℚ) / 100)

/-- Result of one flip call: the elements for which an animation is actually
started, and the number of onComplete invocations. Line 112 resolves
Promise.all over the started animations and then calls onComplete, which
fires exactly once when every started animation finishes, vacuously so when
none is started; the model assumes the started batch is not canceled. -/
structure FlipResult (E : Type) where
  started : List E
  onCompleteCalls : ℕ
deriving DecidableEq

/-- PivotAnimator.flip as a function of the recorded First geometries and the
measured Last geometries of the element list: an animation is started for
every element whose deltas are not all below the visibility threshold. -/
def flip {E : Type} (elements : List E) (first last : E → Geom) : FlipResult E :=
  ⟨elements.filter fun e => !flipSkip (first e) (last e), 1⟩

/-! ## Running-animations registry, pivot-animator.js

this.runningAnimations (line 14) is a JavaScript Map from element to its
in-flight animation. flip (lines 72-75, 100, 104-108), fadeOut (lines
133-136, 150, 153-162) and fadeIn (lines 188-191, 205, 208-212) all follow
the same pattern: if the map already has an entry for the element, cancel
that animation; then set the new animation under the element key; the
onfinish callback deletes the entry. The Map is modelled as an association
list in insertion order, set replacing in place and delete filtering the
key out; elements and animation handles are identified by naturals.
-/

/-- Map.get: the value stored under a key, if any. -/
def mapGet (m : List (ℕ × ℕ)) (k : ℕ) : Option ℕ :=
  (m.find? fun p => p.1 == k).map Prod.snd

/-- Map.set: replace in place when the key is present, append otherwise. -/
def mapSet (m : List (ℕ × ℕ)) (k v : ℕ) : List (ℕ × ℕ) :=
  if m.any (fun p => p.1 == k) then m.map fun p => if p.1 == k then (k, v) else p
  else m ++ [(k, v)]

/-- Map.delete: drop the entry for the key. -/
def mapDelete (m : List (ℕ × ℕ)) (k : ℕ) : List (ℕ × ℕ) :=
  m.filter fun p => !(p.1 == k)

/-- Animator state: the registry of running animations and the list of
animation handles that have been canceled so far. -/
structure AnimState where
  registry : List (ℕ × ℕ)
  canceled : List ℕ
deriving DecidableEq, Repr

/-- Start of one animation on element el, the shared pattern of flip, fadeOut
and fadeIn: cancel the running animation of el when there is one, then store
the new animation handle under el. -/
def startAnimation (s : AnimState) (el anim : ℕ) : AnimState :=
  match mapGet s.registry el with
  | some old => ⟨mapSet s.registry el anim, s.canceled ++ [old]⟩
  | none => ⟨mapSet s.registry el anim, s.canceled⟩

/-- Completion handler of an animation, the onfinish callbacks: remove the
registry entry of the element. -/
def finishAnimation (s : AnimState) (el : ℕ) : AnimState :=
  ⟨mapDelete s.registry el, s.canceled⟩

/-! ## Faceted filtering, pivot-app.js applyFilters (lines 343-364)

The loop of lines 349-361 marks an ad as matching when, for each of the six
filter fields, the active allow-list is empty or contains the value of the
ad for that field, and collects the ids of matching ads; line 364 then keeps
exactly the ads whose id is in that set. Attribute values and ids are
modelled by naturals.
-/

/-- Item record: the id and the six filterable attributes of an ad. -/
structure Ad where
  id : ℕ
  vertical : ℕ
  sizeAttr : ℕ
  adType : ℕ
  rating : ℕ
  brand : ℕ
  status : ℕ
deriving DecidableEq, Repr

/-- Active filter state: one allow-list per attribute, lines 25-32. -/
structure ActiveFilters where
  vertical : List ℕ
  sizeAttr : List ℕ
  adType : List ℕ
  rating : List ℕ
  brand : List ℕ
  status : List ℕ
deriving DecidableEq, Repr

/-- One field of the matching loop, lines 352-356: an empty allow-list is no
constraint, otherwise the value must be in the allow-list. -/
def fieldMatches (allow : List ℕ) (v : ℕ) : Bool :=
  allow.isEmpty || allow.contains v

/-- Conjunction over the six filter fields, lines 350-356. -/
def adMatches (fl : ActiveFilters) (ad : Ad) : Bool :=
  fieldMatches fl.vertical ad.vertical && fieldMatches fl.sizeAttr ad.sizeAttr &&
  fieldMatches fl.adType ad.adType && fieldMatches fl.rating ad.rating &&
  fieldMatches fl.brand ad.brand && fieldMatches fl.status ad.status

/-- Ids of the matching ads, lines 347-361. -/
def matchingIds (fl : ActiveFilters) (ads : List Ad) : List ℕ :=
  (ads.filter (adMatches fl)).map Ad.id

/-- filteredAds, line 364: the ads whose id belongs to the matching set. -/
def applyFilters (fl : ActiveFilters) (ads : List Ad) : List Ad :=
  ads.filter fun ad => (matchingIds fl ads).contains ad.id

/-- Item record of the AdViewer variant in src/unnamed/part_000, with its
five checkbox attributes and the issue flag. -/
structure ViewerAd where
  product : ℕ
  sizeAttr : ℕ
  topic : ℕ
  typeAttr : ℕ
  quality : ℕ
  issue : Bool
deriving DecidableEq, Repr

/-- Checkbox filter state read by AdViewer.applyFilters, part_000 lines
841-847: five allow-lists plus the problems-only toggle. -/
structure ViewerFilters where
  products : List ℕ
  sizes : List ℕ
  topics : List ℕ
  types : List ℕ
  qualities : List ℕ
  problemsOnly : Bool
deriving DecidableEq, Repr

/-- Filter predicate of part_000 lines 849-881: each early return fires when
the checkbox list is non-empty and does not contain the value of the ad, or
when problems-only is on and the ad has no issue. -/
def viewerMatches (fl : ViewerFilters) (ad : ViewerAd) : Bool :=
  !((!fl.products.isEmpty) && !fl.products.contains ad.product) &&
  !((!fl.sizes.isEmpty) && !fl.sizes.contains ad.sizeAttr) &&
  !((!fl.topics.isEmpty) && !fl.topics.contains ad.topic) &&
  !((!fl.types.isEmpty) && !fl.types.contains ad.typeAttr) &&
  !((!fl.qualities.isEmpty) && !fl.qualities.contains ad.quality) &&
  !(fl.problemsOnly && !ad.issue)

/-- filteredAds of the AdViewer variant, part_000 line 849. -/
def viewerApplyFilters (fl : ViewerFilters) (ads : List ViewerAd) : List ViewerAd :=
  ads.filter (viewerMatches fl)

/-! ## Grouped layout, pivot-app.js applyGroupedLayout (lines 542-633)

Groups are given as (key, count) pairs; keys are modelled by naturals with
their linear order standing in for the localeCompare string order used at
line 557. The canvas is divided into equal slots of floored width
(line 566); within a slot the column count fits the slot width at the fixed
cell size (lines 576 and 591), all stacks are aligned to the bottom edge of
the tallest stack (lines 571-580 and 601) and each label is placed at that
common baseline plus the label margin (line 625).
-/

/-- Column count inside a group slot, lines 576 and 591. -/
def groupCols (columnWidth cellSize gap blockGap : ℚ) : ℕ :=
  max 1 (⌊(columnWidth - blockGap) / (cellSize + gap)⌋.toNat)

/-- Stack height of a group, line 578. -/
def stackHeight (cellSize gap : ℚ) (rows : ℕ) : ℚ := (rows : ℚ) * (cellSize + gap)

/-- Tallest stack across the groups, lines 571-580. -/
def maxStackHeight (columnWidth cellSize gap blockGap : ℚ) (counts : List ℕ) : ℚ :=
  counts.foldl
    (fun m c =>
      max m (stackHeight cellSize gap (gridRows c (groupCols columnWidth cellSize gap blockGap))))
    0

/-- Placement computed for one group: its key, item count, grid shape, block
rectangle, and label position. -/
structure GroupPlacement where
  key : ℕ
  count : ℕ
  cols : ℕ
  rows : ℕ
  blockX : ℚ
  stackTopY : ℚ
  blockW : ℚ
  blockH : ℚ
  labelLeft : ℚ
  labelTop : ℚ
deriving DecidableEq, Repr

/-- Placement of the group sitting at slot index idx, lines 583-627. -/
def placeGroup (columnWidth cellSize gap blockGap labelMargin msh : ℚ)
    (idx key count : ℕ) : GroupPlacement :=
  let groupCenterX := ((idx : ℚ) + 1 / 2) * columnWidth
  let cols := groupCols columnWidth cellSize gap blockGap
  let rows := gridRows count cols
  let blockW := (cols : ℚ) * (cellSize + gap) - gap
  let blockH := (rows : ℚ) * (cellSize + gap) - gap
  ⟨key, count, cols, rows, groupCenterX - blockW / 2, msh - blockH, blockW, blockH,
    groupCenterX - 60, msh + labelMargin⟩

/-- Placement of a list of groups starting at slot index idx, mirroring the
indexed forEach of line 583. -/
def placeGroups (columnWidth cellSize gap blockGap labelMargin msh : ℚ)
    (idx : ℕ) : List (ℕ × ℕ) → List GroupPlacement
  | [] => []
  | g :: rest =>
      placeGroup columnWidth cellSize gap blockGap labelMargin msh idx g.1 g.2 ::
        placeGroups columnWidth cellSize gap blockGap labelMargin msh (idx + 1) rest

/-- applyGroupedLayout: sort the groups by key (line 557), divide the canvas
into equal slots of floored width (line 566), compute the tallest stack and
place every group against the common bottom baseline. -/
def applyGroupedLayout (canvasWidth cellSize gap blockGap labelMargin : ℚ)
    (groups : List (ℕ × ℕ)) : List GroupPlacement :=
  let sorted := groups.insertionSort fun a b => a.1 ≤ b.1
  let columnWidth : ℚ := ((⌊canvasWidth / (sorted.length : ℚ)⌋ : ℤ) : ℚ)
  let msh := maxStackHeight columnWidth cellSize gap blockGap (sorted.map Prod.snd)
  placeGroups columnWidth cellSize gap blockGap labelMargin msh 0 sorted

/-- Vertical position of item i inside a placed group, lines 609-612. -/
def groupItemY (cellSize gap : ℚ) (p : GroupPlacement) (i : ℕ) : ℚ :=
  p.stackTopY + ((i / p.cols : ℕ) : ℚ) * (cellSize + gap)

instance : IsTotal (ℕ × ℕ) fun a b => a.1 ≤ b.1 :=
  ⟨fun a b => le_total a.1 b.1⟩

instance : IsTrans (ℕ × ℕ) fun a b => a.1 ≤ b.1 :=
  ⟨fun _ _ _ hab hbc => le_trans hab hbc⟩

/-! ## Helper lemmas -/

lemma gridInv_step (cw ch gap : ℚ) (N : ℕ) (l : List ℕ) (b : GridBest) (m : ℕ)
    (hb : GridInv cw ch gap N l b) (hlt : ∀ c ∈ l, c < m) :
    GridInv cw ch gap N (l ++ [m]) (gridStep cw ch gap N b m) := by
  by_cases hadm : GridAdm cw ch gap N m
  · have hcond : ¬(gridCellSize cw ch gap N m < 30 ∨ 200 < gridCellSize cw ch gap N m) := hadm
    rcases hb with ⟨hbinit, hnone⟩ | ⟨hmem, hbadm, hcs, hrows, hfit, hmin⟩
    · -- nothing admissible so far: m becomes the new best
      right
      rw [gridStep, if_neg hcond, hbinit]
      have : fitLt (gridWaste cw ch gap N m) gridInit.fit := trivial
      rw [if_pos this]
      refine ⟨by simp, hadm, rfl, rfl, rfl, ?_⟩
      intro c hc hcadm
      rcases List.mem_append.mp hc with hcl | hcm
      · exact absurd hcadm (hnone c hcl)
      · rcases List.mem_singleton.mp hcm with rfl
        exact ⟨le_refl _, fun _ => le_refl _⟩
    · rw [gridStep, if_neg hcond]
      by_cases hw : fitLt (gridWaste cw ch gap N m) b.fit
      · -- the new candidate strictly improves: it becomes the best
        right
        rw [if_pos hw]
        have hwlt : gridWaste cw ch gap N m < gridWaste cw ch gap N b.cols := by
          rw [hfit] at hw
          exact hw
        refine ⟨by simp, hadm, rfl, rfl, rfl, ?_⟩
        intro c hc hcadm
        rcases List.mem_append.mp hc with hcl | hcm
        · have hle := (hmin c hcl hcadm).1
          constructor
          · exact le_of_lt (lt_of_lt_of_le hwlt hle)
          · intro heq
            exact absurd (heq ▸ lt_of_lt_of_le hwlt hle) (lt_irrefl _)
        · rcases List.mem_singleton.mp hcm with rfl
          exact ⟨le_refl _, fun _ => le_refl _⟩
      · -- the new candidate does not improve: keep the old best
        right
        rw [if_neg hw]
        have hwge : gridWaste cw ch gap N b.cols ≤ gridWaste cw ch gap N m := by
          rw [hfit] at hw
          simpa only [fitLt, not_lt] using hw
        refine ⟨List.mem_append.mpr (Or.inl hmem), hbadm, hcs, hrows, hfit, ?_⟩
        intro c hc hcadm
        rcases List.mem_append.mp hc with hcl | hcm
        · exact hmin c hcl hcadm
        · rcases List.mem_singleton.mp hcm with rfl
          exact ⟨hwge, fun _ => le_of_lt (hlt b.cols hmem)⟩
  · -- inadmissible candidate: the loop skips it and the state is unchanged
    have hcond : gridCellSize cw ch gap N m < 30 ∨ 200 < gridCellSize cw ch gap N m := by
      by_contra hcon
      exact hadm hcon
    rw [gridStep, if_pos hcond]
    rcases hb with ⟨hbinit, hnone⟩ | ⟨hmem, hbadm, hcs, hrows, hfit, hmin⟩
    · left
      refine ⟨hbinit, ?_⟩
      intro c hc
      rcases List.mem_append.mp hc with hcl | hcm
      · exact hnone c hcl
      · rcases List.mem_singleton.mp hcm with rfl
        exact hadm
    · right
      refine ⟨List.mem_append.mpr (Or.inl hmem), hbadm, hcs, hrows, hfit, ?_⟩
      intro c hc hcadm
      rcases List.mem_append.mp hc with hcl | hcm
      · exact hmin c hcl hcadm
      · rcases List.mem_singleton.mp hcm with rfl
        exact absurd hcadm hadm

lemma gridInv_fold (cw ch gap : ℚ) (N n : ℕ) :
    GridInv cw ch gap N (List.range' 1 n)
      ((List.range' 1 n).foldl (gridStep cw ch gap N) gridInit) := by
  induction n with
  | zero => exact Or.inl ⟨rfl, by simp⟩
  | succ k ih =>
      have hr : List.range' 1 (k + 1) = List.range' 1 k ++ [1 + k] := by
        simpa using @List.range'_concat 1 1 k
      rw [hr, List.foldl_append]
      refine gridInv_step cw ch gap N _ _ _ ih ?_
      intro c hc
      have := List.mem_range'_1.mp hc
      omega

lemma gridSearch_inv (cw ch gap : ℚ) (N : ℕ) :
    GridInv cw ch gap N (List.range' 1 N) (gridSearch cw ch gap N) :=
  gridInv_fold cw ch gap N N

set_option maxHeartbeats 2000000 in
lemma gridSearch_400_300_4_12 : gridSearch 400 300 4 12 = ⟨97, 4, 3, some 1⟩ := by
  have h1 : gridStep 400 300 4 12 gridInit 1 = gridInit := by
    norm_num [gridStep, gridRows, gridCellSize, gridWaste, fitLt, gridInit, min_def, abs, max_def]
  have h2 : gridStep 400 300 4 12 gridInit 2 = ⟨140/3, 2, 6, some (908/3)⟩ := by
    norm_num [gridStep, gridRows, gridCellSize, gridWaste, fitLt, gridInit, min_def, abs, max_def]
  have h3 : gridStep 400 300 4 12 ⟨140/3, 2, 6, some (908/3)⟩ 3 = ⟨72, 3, 4, some 176⟩ := by
    norm_num [gridStep, gridRows, gridCellSize, gridWaste, fitLt, min_def, abs, max_def]
  have h4 : gridStep 400 300 4 12 ⟨72, 3, 4, some 176⟩ 4 = ⟨97, 4, 3, some 1⟩ := by
    norm_num [gridStep, gridRows, gridCellSize, gridWaste, fitLt, min_def, abs, max_def]
  have h5 : gridStep 400 300 4 12 ⟨97, 4, 3, some 1⟩ 5 = ⟨97, 4, 3, some 1⟩ := by
    norm_num [gridStep, gridRows, gridCellSize, gridWaste, fitLt, min_def, abs, max_def]
  have h6 : gridStep 400 300 4 12 ⟨97, 4, 3, some 1⟩ 6 = ⟨97, 4, 3, some 1⟩ := by
    norm_num [gridStep, gridRows, gridCellSize, gridWaste, fitLt, min_def, abs, max_def]
  have h7 : gridStep 400 300 4 12 ⟨97, 4, 3, some 1⟩ 7 = ⟨97, 4, 3, some 1⟩ := by
    norm_num [gridStep, gridRows, gridCellSize, gridWaste, fitLt, min_def, abs, max_def]
  have h8 : gridStep 400 300 4 12 ⟨97, 4, 3, some 1⟩ 8 = ⟨97, 4, 3, some 1⟩ := by
    norm_num [gridStep, gridRows, gridCellSize, gridWaste, fitLt, min_def, abs, max_def]
  have h9 : gridStep 400 300 4 12 ⟨97, 4, 3, some 1⟩ 9 = ⟨97, 4, 3, some 1⟩ := by
    norm_num [gridStep, gridRows, gridCellSize, gridWaste, fitLt, min_def, abs, max_def]
  have h10 : gridStep 400 300 4 12 ⟨97, 4, 3, some 1⟩ 10 = ⟨97, 4, 3, some 1⟩ := by
    norm_num [gridStep, gridRows, gridCellSize, gridWaste, fitLt, min_def, abs, max_def]
  have h11 : gridStep 400 300 4 12 ⟨97, 4, 3, some 1⟩ 11 = ⟨97, 4, 3, some 1⟩ := by
    norm_num [gridStep, gridRows, gridCellSize, gridWaste, fitLt, min_def, abs, max_def]
  have h12 : gridStep 400 300 4 12 ⟨97, 4, 3, some 1⟩ 12 = ⟨97, 4, 3, some 1⟩ := by
    norm_num [gridStep, gridRows, gridCellSize, gridWaste, fitLt, min_def, abs, max_def]
  have hr : List.range' 1 12 = [1, 2, 3, 4, 5, 6, 7, 8, 9, 10, 11, 12] := by decide
  rw [gridSearch, hr]
  simp only [List.foldl_cons, List.foldl_nil]
  rw [h1, h2, h3, h4, h5, h6, h7, h8, h9, h10, h11, h12]

lemma constrainAxis_of_le (container s x : ℚ) (h : s ≤ container) :
    constrainAxis container s x = (container - s) / 2 := by
  simp only [constrainAxis, if_pos h]

lemma constrainAxis_of_lt (container s x : ℚ) (h : container < s) :
    constrainAxis container s x = max (container - s) (min 0 x) := by
  have h1 : ¬s ≤ container := not_le.mpr h
  have hneg : container - s < 0 := by linarith
  simp only [constrainAxis, if_neg h1]
  rw [min_eq_right hneg.le]
  have hx1le : max (container - s) (min 0 x) ≤ 0 := max_le hneg.le (min_le_left _ _)
  rw [if_neg (not_lt.mpr hx1le)]
  rw [if_neg (not_lt.mpr (le_max_left _ _))]

/-! ## Claim theorems -/

/-- C1: for every visible item count N >= 1 and container size, the uniform
grid search ranges over cols in [1, N], computes rows = ceil(N / cols) and the
min of the width- and height-derived cell sizes, rejects cell sizes outside
[30, 200], and, whenever at least one admissible candidate exists, returns an
admissible candidate whose wasted space is less than or equal to that of every
admissible candidate, taking the smaller cols on exact wastage ties. -/
theorem c1_grid_search_selects_admissible_min_waste (cw ch gap : ℚ) (N : ℕ)
    (hex : ∃ c ∈ List.range' 1 N, GridAdm cw ch gap N c) :
    (gridSearch cw ch gap N).cols ∈ List.range' 1 N ∧
    GridAdm cw ch gap N (gridSearch cw ch gap N).cols ∧
    (gridSearch cw ch gap N).rows = gridRows N (gridSearch cw ch gap N).cols ∧
    (gridSearch cw ch gap N).cellSize =
      gridCellSize cw ch gap N (gridSearch cw ch gap N).cols ∧
    (gridSearch cw ch gap N).fit =
      some (gridWaste cw ch gap N (gridSearch cw ch gap N).cols) ∧
    ∀ c ∈ List.range' 1 N, GridAdm cw ch gap N c →
      gridWaste cw ch gap N (gridSearch cw ch gap N).cols ≤ gridWaste cw ch gap N c ∧
      (gridWaste cw ch gap N c = gridWaste cw ch gap N (gridSearch cw ch gap N).cols →
        (gridSearch cw ch gap N).cols ≤ c) := by
  rcases gridSearch_inv cw ch gap N with ⟨_, hnone⟩ | h
  · rcases hex with ⟨c, hc, hcadm⟩
    exact absurd hcadm (hnone c hc)
  · obtain ⟨hmem, hadm, hcs, hrows, hfit, hmin⟩ := h
    exact ⟨hmem, hadm, hrows, hcs, hfit, hmin⟩

/-- Witness for C1 at N = 2 in a 100 x 100 container with gap 4: cols = 1 and
cols = 2 are both admissible with equal waste 52, and the search keeps an
admissible choice. -/
theorem c1_witness : GridAdm 100 100 4 2 (gridSearch 100 100 4 2).cols :=
  (c1_grid_search_selects_admissible_min_waste 100 100 4 2
    ⟨1, by decide, by norm_num [GridAdm, gridCellSize, gridRows, min_def]⟩).2.1

/-- C2 counterexample: with 12 visible items in a 400 x 300 container and the
item gap of 4 used by the code, the grid search does not produce cell size 100
and the wasted space is not zero (the gaps make the exact 4 x 3 fill
impossible): the selected cell size is 97 with waste 1. -/
theorem c2_counterexample :
    (gridSearch 400 300 4 12).cellSize ≠ 100 ∧ (gridSearch 400 300 4 12).fit ≠ some 0 := by
  rw [gridSearch_400_300_4_12]
  refine ⟨by norm_num, ?_⟩
  simp only [ne_eq, Option.some.injEq]
  norm_num

/-- C2 amended: for 12 visible items in a 400 x 300 container with gap 4, the
uniform grid layout chooses cols = 4 and rows = 3; the selected cell size is
97 after flooring (the width-derived (400 - 3 * 4) / 4 = 97 capped by the
height-derived (300 - 2 * 4) / 3) and the resulting wasted space is 1. -/
theorem c2_amended_grid_400x300 :
    (gridSearch 400 300 4 12).cols = 4 ∧ (gridSearch 400 300 4 12).rows = 3 ∧
    ((⌊(gridSearch 400 300 4 12).cellSize⌋ : ℤ) : ℚ) = 97 ∧
    (gridSearch 400 300 4 12).fit = some 1 := by
  rw [gridSearch_400_300_4_12]
  refine ⟨rfl, rfl, by norm_num, rfl⟩

/-- C10: if no column count in [1, N] is admissible, the grid layout does not
fail: the search keeps the built-in defaults of cell size 60 and one column,
and every one of the N visible items receives a definite position with size
60. -/
theorem c10_grid_fallback_defaults (cw ch gap : ℚ) (N : ℕ) (hN : 1 ≤ N)
    (hnone : ∀ c ∈ List.range' 1 N, ¬GridAdm cw ch gap N c) :
    gridSearch cw ch gap N = gridInit ∧
    (applyGridLayout cw ch gap N).length = N ∧
    ∀ p ∈ applyGridLayout cw ch gap N, p.2.2 = 60 := by
  have hsearch : gridSearch cw ch gap N = gridInit := by
    rcases gridSearch_inv cw ch gap N with ⟨hinit, _⟩ | ⟨hmem, hadm, _⟩
    · exact hinit
    · exact absurd hadm (hnone _ hmem)
  have hN0 : N ≠ 0 := by omega
  refine ⟨hsearch, ?_, ?_⟩
  · simp [applyGridLayout, hN0]
  · intro p hp
    rw [applyGridLayout, if_neg hN0] at hp
    simp only [hsearch, gridInit, List.mem_map] at hp
    obtain ⟨i, _, rfl⟩ := hp
    norm_num

/-- Witness for C10: a single item in a 1000 x 1000 container gives cell size
1000 > 200 for the only candidate cols = 1, so the fallback applies and the
item still gets a definite position with the default size 60. -/
theorem c10_witness : (applyGridLayout 1000 1000 4 1).length = 1 :=
  (c10_grid_fallback_defaults 1000 1000 4 1 (by norm_num)
    (by
      intro c hc
      have hc1 : c = 1 := by simpa using hc
      subst hc1
      norm_num [GridAdm, gridCellSize, gridRows, min_def])).2.1

/-- C6: after constrainPan, on each axis independently: if the scaled content
fits the container on that axis the pan exactly centers it, and otherwise the
pan is clamped so the content leading edge is at or before the container
leading edge and the content trailing edge is at or after the container
trailing edge. -/
theorem c6_constrain_pan_centers_or_clamps (cw ch contentW contentH : ℚ) (v : Viewport) :
    (contentW * v.scale ≤ cw →
      (constrainPan cw ch contentW contentH v).panX = (cw - contentW * v.scale) / 2) ∧
    (cw < contentW * v.scale →
      (constrainPan cw ch contentW contentH v).panX ≤ 0 ∧
      cw ≤ (constrainPan cw ch contentW contentH v).panX + contentW * v.scale) ∧
    (contentH * v.scale ≤ ch →
      (constrainPan cw ch contentW contentH v).panY = (ch - contentH * v.scale) / 2) ∧
    (ch < contentH * v.scale →
      (constrainPan cw ch contentW contentH v).panY ≤ 0 ∧
      ch ≤ (constrainPan cw ch contentW contentH v).panY + contentH * v.scale) := by
  refine ⟨fun h => constrainAxis_of_le _ _ _ h, fun h => ?_,
    fun h => constrainAxis_of_le _ _ _ h, fun h => ?_⟩
  · rw [show (constrainPan cw ch contentW contentH v).panX =
      constrainAxis cw (contentW * v.scale) v.panX from rfl, constrainAxis_of_lt _ _ _ h]
    constructor
    · exact max_le (by linarith) (min_le_left _ _)
    · have := le_max_left (cw - contentW * v.scale) (min 0 v.panX)
      linarith
  · rw [show (constrainPan cw ch contentW contentH v).panY =
      constrainAxis ch (contentH * v.scale) v.panY from rfl, constrainAxis_of_lt _ _ _ h]
    constructor
    · exact max_le (by linarith) (min_le_left _ _)
    · have := le_max_left (ch - contentH * v.scale) (min 0 v.panY)
      linarith

/-- Witness for C6: content 50 wide at scale 1 in a 100 wide container is
exactly centered at pan 25. -/
theorem c6_witness : (constrainPan 100 100 50 300 ⟨1, 7, -9⟩).panX = (100 - 50 * 1) / 2 :=
  (c6_constrain_pan_centers_or_clamps 100 100 50 300 ⟨1, 7, -9⟩).1 (by norm_num)

/-- C5 counterexample: starting from the already constrained state
scale 1, pan (-1000, -1000), with a 2000 x 2000 content in a 1000 x 1000
container and scale bounds [1/10, 10], zooming by 1/2 and then by 2 (all
scales staying inside the bounds) returns scale 1 but pan (-500, -500): the
constrainPan step inside zoom recenters the pan while the content fits, so
the round trip does not restore the translation. -/
theorem c5_counterexample :
    constrainPan 1000 1000 2000 2000 ⟨1, -1000, -1000⟩ = ⟨1, -1000, -1000⟩ ∧
    zoom (1/10) 10 1000 1000 2000 2000 2
      (zoom (1/10) 10 1000 1000 2000 2000 (1/2) ⟨1, -1000, -1000⟩) = ⟨1, -500, -500⟩ ∧
    (⟨1, -500, -500⟩ : Viewport) ≠ ⟨1, -1000, -1000⟩ := by
  refine ⟨?_, ?_, ?_⟩
  · norm_num [constrainPan, constrainAxis, min_def, max_def]
  · norm_num [zoom, zoomCore, constrainPan, constrainAxis, min_def, max_def]
  · simp only [ne_eq, Viewport.mk.injEq]
    norm_num

/-- C5 amended: the zoom update before pan constraining (lines 656-667) is
the identity at factor 1 for any in-bounds scale, always sets the new scale
to clamp(scale * factor, minScale, maxScale), and composed with the inverse
factor restores both scale and translation exactly; the full zoom operation
(which ends with constrainPan) still restores the scale on such a round trip,
but its translation may be recentered or reclamped by the pan constraint. -/
theorem c5_amended_zoom_roundtrip (minScale maxScale cw ch contentW contentH f : ℚ)
    (v : Viewport) (hpos : 0 < v.scale) (hlo : minScale ≤ v.scale) (hhi : v.scale ≤ maxScale) :
    zoomCore minScale maxScale cw ch 1 v = v ∧
    (zoomCore minScale maxScale cw ch f v).scale = min maxScale (max minScale (v.scale * f)) ∧
    (f ≠ 0 → minScale ≤ v.scale * f → v.scale * f ≤ maxScale →
      zoomCore minScale maxScale cw ch (1 / f) (zoomCore minScale maxScale cw ch f v) = v ∧
      (zoom minScale maxScale cw ch contentW contentH (1 / f)
        (zoom minScale maxScale cw ch contentW contentH f v)).scale = v.scale) := by
  have hs : v.scale ≠ 0 := ne_of_gt hpos
  have hclamp : min maxScale (max minScale v.scale) = v.scale := by
    rw [max_eq_right hlo, min_eq_right hhi]
  refine ⟨?_, rfl, ?_⟩
  · obtain ⟨s, px, py⟩ := v
    simp only [zoomCore, mul_one] at hclamp ⊢
    rw [hclamp]
    simp only [Viewport.mk.injEq]
    refine ⟨by trivial, ?_, ?_⟩ <;> field_simp
  · intro hf h1 h2
    have hclampf : min maxScale (max minScale (v.scale * f)) = v.scale * f := by
      rw [max_eq_right h1, min_eq_right h2]
    have hstep : (zoomCore minScale maxScale cw ch f v).scale = v.scale * f := by
      rw [show (zoomCore minScale maxScale cw ch f v).scale =
        min maxScale (max minScale (v.scale * f)) from rfl, hclampf]
    constructor
    · obtain ⟨s, px, py⟩ := v
      simp only at hs hclampf
      simp only [zoomCore, Viewport.mk.injEq, hclampf]
      have hback : min maxScale (max minScale (s * f * (1 / f))) = s := by
        rw [show s * f * (1 / f) = s by field_simp]
        exact hclamp
      refine ⟨hback, ?_, ?_⟩ <;>
        · rw [hback]
          field_simp
          ring
    · show min maxScale (max minScale
        ((constrainPan cw ch contentW contentH
          (zoomCore minScale maxScale cw ch f v)).scale * (1 / f))) = v.scale
      rw [show (constrainPan cw ch contentW contentH
        (zoomCore minScale maxScale cw ch f v)).scale =
        (zoomCore minScale maxScale cw ch f v).scale from rfl, hstep,
        show v.scale * f * (1 / f) = v.scale by field_simp]
      exact hclamp

/-- Witness for C5 amended at scale 1, bounds [1/10, 10], factor 2. -/
theorem c5_witness : zoomCore (1/10) 10 1000 1000 1 ⟨1, 5, 7⟩ = ⟨1, 5, 7⟩ :=
  (c5_amended_zoom_roundtrip (1/10) 10 1000 1000 2000 2000 2 ⟨1, 5, 7⟩
    (by norm_num) (by norm_num) (by norm_num)).1

/-- C9 counterexample: with a zero-size container but a measured 100 x 100
content and scale bounds [1/10, 10], fitToViewport yields scale 1/10 (the
minimum scale, after clamping a negative fitting scale) and pan (-5, -5), not
scale 1 and translation 0: the code guards on zero content size, not on
degenerate container size. -/
theorem c9_counterexample :
    fitToViewport (1/10) 10 0 0 100 0 100 0 = (1/10, -5, -5) ∧
    ((1 : ℚ)/10 ≠ 1) ∧ ((-5 : ℚ) ≠ 0) := by
  refine ⟨?_, by norm_num, by norm_num⟩
  norm_num [fitToViewport, jsOr, min_def, max_def]

/-- C9 amended: fitToViewport degrades to scale 1 and translation 0 for a
zero-size container whose content measurements are also zero (the resolved
content size then falls back to the zero container size and the zero-content
guard fires); with nonzero measured content and a degenerate container the
result is still a well-defined finite state, but with the scale clamped to
minScale rather than set to 1. -/
theorem c9_amended_fit_degrades (minScale maxScale : ℚ)
    (h1 : minScale ≤ 1) (h2 : 1 ≤ maxScale) :
    fitToViewport minScale maxScale 0 0 0 0 0 0 = (1, 0, 0) := by
  have hc : max minScale (min maxScale 1) = 1 := by rw [min_eq_right h2, max_eq_right h1]
  simp [fitToViewport, jsOr, hc]

/-- Witness for C9 amended with the scale bounds of the source. -/
theorem c9_witness : fitToViewport (1/10) 10 0 0 0 0 0 0 = (1, 0, 0) :=
  c9_amended_fit_degrades (1/10) 10 (by norm_num) (by norm_num)

/-- C3 counterexample: an element of width 0 whose recorded First geometry
equals its Last geometry still gets an animation started, because the width
ratio first.width / (last.width || 1) is 0 / 1 = 0 and |0 - 1| = 1 is not
below the one percent threshold, so the skip test of lines 66-69 fails. -/
theorem c3_counterexample :
    (flip [0] (fun _ => (⟨0, 0, 0, 50, 1⟩ : Geom)) fun _ => ⟨0, 0, 0, 50, 1⟩).started =
      [0] ∧ ([0] : List ℕ) ≠ [] := by
  have hskip : flipSkip ⟨0, 0, 0, 50, 1⟩ ⟨0, 0, 0, 50, 1⟩ = false := by
    norm_num [flipSkip, jsOr]
  exact ⟨by simp [flip, hskip], by simp⟩

/-- C3 amended: when every element records a First geometry equal to its Last
geometry and has nonzero width and height, the FLIP pass starts zero
animations (every delta is below the visibility threshold) and the completion
callback still fires exactly once. -/
theorem c3_amended_flip_identical_geometry {E : Type} (elements : List E)
    (first last : E → Geom)
    (h : ∀ e ∈ elements, first e = last e ∧ (last e).width ≠ 0 ∧ (last e).height ≠ 0) :
    (flip elements first last).started = [] ∧
    (flip elements first last).onCompleteCalls = 1 := by
  refine ⟨?_, rfl⟩
  simp only [flip]
  rw [List.filter_eq_nil_iff]
  intro e he
  obtain ⟨heq, hw, hh⟩ := h e he
  rw [heq]
  simp only [Bool.not_eq_true', Bool.not_eq_false]
  simp only [flipSkip, jsOr, if_neg hw, if_neg hh, div_self hw, div_self hh, sub_self,
    abs_zero]
  norm_num

/-- Witness for C3 amended: one element with nonzero size and identical First
and Last geometry starts no animation. -/
theorem c3_witness :
    (flip [0] (fun _ => (⟨3, 4, 50, 60, 1⟩ : Geom)) fun _ => ⟨3, 4, 50, 60, 1⟩).started =
      [] :=
  (c3_amended_flip_identical_geometry [0] _ _
    (fun e _ => ⟨rfl, by norm_num, by norm_num⟩)).1

lemma startAnimation_registry (s : AnimState) (el anim : ℕ) :
    (startAnimation s el anim).registry = mapSet s.registry el anim := by
  rw [startAnimation]
  cases mapGet s.registry el <;> rfl

lemma mapSet_keys_of_mem (m : List (ℕ × ℕ)) (k v : ℕ)
    (h : m.any (fun p => p.1 == k) = true) :
    (mapSet m k v).map Prod.fst = m.map Prod.fst := by
  rw [mapSet, if_pos h, List.map_map]
  refine List.map_congr_left ?_
  intro p _
  by_cases hpk : p.1 = k
  · simp [Function.comp, hpk]
  · simp [Function.comp, hpk]

lemma mapSet_keys_of_not_mem (m : List (ℕ × ℕ)) (k v : ℕ)
    (h : m.any (fun p => p.1 == k) = false) :
    (mapSet m k v).map Prod.fst = m.map Prod.fst ++ [k] := by
  rw [mapSet, if_neg (by simp [h]), List.map_append]
  rfl

lemma mem_keys_mapSet (m : List (ℕ × ℕ)) (k v : ℕ) :
    k ∈ (mapSet m k v).map Prod.fst := by
  by_cases h : m.any (fun p => p.1 == k) = true
  · rw [mapSet_keys_of_mem m k v h]
    obtain ⟨p, hp, hpk⟩ := List.any_eq_true.mp h
    have hk : p.1 = k := by simpa using hpk
    exact hk ▸ List.mem_map_of_mem Prod.fst hp
  · rw [mapSet_keys_of_not_mem m k v (Bool.eq_false_iff.mpr h)]
    exact List.mem_append_right _ (List.mem_singleton_self k)

lemma mapSet_keys_nodup (m : List (ℕ × ℕ)) (k v : ℕ)
    (h : (m.map Prod.fst).Nodup) : ((mapSet m k v).map Prod.fst).Nodup := by
  by_cases hany : m.any (fun p => p.1 == k) = true
  · rw [mapSet_keys_of_mem m k v hany]
    exact h
  · rw [mapSet_keys_of_not_mem m k v (Bool.eq_false_iff.mpr hany)]
    rw [List.nodup_append]
    refine ⟨h, List.nodup_singleton k, ?_⟩
    intro a ha hak
    rcases List.mem_singleton.mp hak with rfl
    obtain ⟨p, hp, hpk⟩ := List.mem_map.mp ha
    exact hany (List.any_eq_true.mpr ⟨p, hp, by simp [hpk]⟩)

lemma filter_key_length_one (m : List (ℕ × ℕ)) (k : ℕ)
    (h : (m.map Prod.fst).Nodup) (hk : k ∈ m.map Prod.fst) :
    (m.filter fun p => p.1 == k).length = 1 := by
  induction m with
  | nil => simp at hk
  | cons a t ih =>
      simp only [List.map_cons, List.nodup_cons] at h
      obtain ⟨hnota, ht⟩ := h
      by_cases hak : a.1 = k
      · have htnil : t.filter (fun p => p.1 == k) = [] := by
          rw [List.filter_eq_nil_iff]
          intro p hp hpk
          have hpk2 : p.1 = k := by simpa using hpk
          exact hnota ((hak.trans hpk2.symm) ▸ List.mem_map_of_mem Prod.fst hp)
        rw [List.filter_cons_of_pos (by simp [hak]), htnil]
        rfl
      · have hk2 : k ∈ t.map Prod.fst := by
          rcases List.mem_cons.mp hk with h1 | h1
          · exact absurd h1.symm hak
          · exact h1
        rw [List.filter_cons_of_neg (by simp [hak])]
        exact ih ht hk2

lemma mapGet_mapDelete (m : List (ℕ × ℕ)) (k : ℕ) :
    mapGet (mapDelete m k) k = none := by
  rw [mapGet, mapDelete]
  have hfind : ((m.filter fun p => !(p.1 == k)).find? fun p => p.1 == k) = none := by
    rw [List.find?_eq_none]
    intro p hp
    have hp2 := (List.mem_filter.mp hp).2
    simp only [Bool.not_eq_true'] at hp2
    simp [hp2]
  rw [hfind]
  rfl

/-- C4: the running-animations registry keeps at most one entry per element:
starting a new animation via flip, fadeOut or fadeIn on an element that
already has a running animation cancels the existing animation and leaves
exactly one registry entry for that element, the key set stays duplicate
free, and finishing an animation removes its entry. -/
theorem c4_registry_at_most_one_per_element (s : AnimState) (el anim : ℕ)
    (h : (s.registry.map Prod.fst).Nodup) :
    ((startAnimation s el anim).registry.map Prod.fst).Nodup ∧
    ((startAnimation s el anim).registry.filter fun p => p.1 == el).length = 1 ∧
    (∀ old, mapGet s.registry el = some old →
      old ∈ (startAnimation s el anim).canceled) ∧
    ((finishAnimation s el).registry.map Prod.fst).Nodup ∧
    mapGet (finishAnimation s el).registry el = none := by
  refine ⟨?_, ?_, ?_, ?_, ?_⟩
  · rw [startAnimation_registry]
    exact mapSet_keys_nodup _ _ _ h
  · rw [startAnimation_registry]
    exact filter_key_length_one _ _ (mapSet_keys_nodup _ _ _ h) (mem_keys_mapSet _ _ _)
  · intro old hold
    simp only [startAnimation, hold]
    exact List.mem_append_right _ (List.mem_singleton_self old)
  · exact List.Nodup.sublist (List.Sublist.map _ (List.filter_sublist _)) h
  · exact mapGet_mapDelete _ _

/-- Witness for C4: starting animation 11 on element 1, which is already
running animation 10, leaves exactly one registry entry for element 1. -/
theorem c4_witness :
    ((startAnimation ⟨[(1, 10)], []⟩ 1 11).registry.filter fun p => p.1 == 1).length = 1 :=
  (c4_registry_at_most_one_per_element ⟨[(1, 10)], []⟩ 1 11 (by decide)).2.1

lemma fieldMatches_iff (allow : List ℕ) (v : ℕ) :
    fieldMatches allow v = true ↔ (allow ≠ [] → v ∈ allow) := by
  rw [fieldMatches, Bool.or_eq_true]
  simp only [List.isEmpty_iff, List.contains, List.elem_iff]
  exact or_iff_not_imp_left

lemma adMatches_iff (fl : ActiveFilters) (b : Ad) :
    adMatches fl b = true ↔
      ((fl.vertical ≠ [] → b.vertical ∈ fl.vertical) ∧
        (fl.sizeAttr ≠ [] → b.sizeAttr ∈ fl.sizeAttr) ∧
        (fl.adType ≠ [] → b.adType ∈ fl.adType) ∧
        (fl.rating ≠ [] → b.rating ∈ fl.rating) ∧
        (fl.brand ≠ [] → b.brand ∈ fl.brand) ∧
        (fl.status ≠ [] → b.status ∈ fl.status)) := by
  simp only [adMatches, Bool.and_eq_true, fieldMatches_iff]
  tauto

lemma viewerMatches_iff (fl : ViewerFilters) (ad : ViewerAd) :
    viewerMatches fl ad = true ↔
      ((fl.products ≠ [] → ad.product ∈ fl.products) ∧
        (fl.sizes ≠ [] → ad.sizeAttr ∈ fl.sizes) ∧
        (fl.topics ≠ [] → ad.topic ∈ fl.topics) ∧
        (fl.types ≠ [] → ad.typeAttr ∈ fl.types) ∧
        (fl.qualities ≠ [] → ad.quality ∈ fl.qualities) ∧
        (fl.problemsOnly = true → ad.issue = true)) := by
  cases hpo : fl.problemsOnly <;>
    · simp [viewerMatches, hpo, List.isEmpty_iff, List.contains, List.elem_iff]
      tauto

/-- C8: an item belongs to the filtered set if and only if it belongs to the
collection and, for every attribute whose allow-list is non-empty, its value
for that attribute is in the allow-list: logical AND across attributes,
logical OR within an allow-list, an empty allow-list being no constraint.
Membership is computed purely from the active filters and the collection. The
first part covers PivotApp.applyFilters, with the nodup hypothesis standing
for the stable-unique-identifier invariant of the data model; the second part
covers the AdViewer variant of part_000, whose problems-only toggle is the
allow-list constraint on the issue attribute (no constraint when off). -/
theorem c8_filter_membership_iff (fl : ActiveFilters) (ads : List Ad) (a : Ad)
    (hids : (ads.map Ad.id).Nodup) :
    (a ∈ applyFilters fl ads ↔
      (a ∈ ads ∧ (fl.vertical ≠ [] → a.vertical ∈ fl.vertical) ∧
        (fl.sizeAttr ≠ [] → a.sizeAttr ∈ fl.sizeAttr) ∧
        (fl.adType ≠ [] → a.adType ∈ fl.adType) ∧
        (fl.rating ≠ [] → a.rating ∈ fl.rating) ∧
        (fl.brand ≠ [] → a.brand ∈ fl.brand) ∧
        (fl.status ≠ [] → a.status ∈ fl.status))) ∧
    ∀ (vfl : ViewerFilters) (vads : List ViewerAd) (va : ViewerAd),
      va ∈ viewerApplyFilters vfl vads ↔
        (va ∈ vads ∧ (vfl.products ≠ [] → va.product ∈ vfl.products) ∧
          (vfl.sizes ≠ [] → va.sizeAttr ∈ vfl.sizes) ∧
          (vfl.topics ≠ [] → va.topic ∈ vfl.topics) ∧
          (vfl.types ≠ [] → va.typeAttr ∈ vfl.types) ∧
          (vfl.qualities ≠ [] → va.quality ∈ vfl.qualities) ∧
          (vfl.problemsOnly = true → va.issue = true)) := by
  constructor
  · constructor
    · intro hmem
      rw [applyFilters, List.mem_filter] at hmem
      obtain ⟨ha, hc⟩ := hmem
      have hidmem : a.id ∈ matchingIds fl ads := by
        simpa [List.contains, List.elem_iff] using hc
      rw [matchingIds] at hidmem
      obtain ⟨b, hb, hbid⟩ := List.mem_map.mp hidmem
      rw [List.mem_filter] at hb
      obtain ⟨hbads, hbmatch⟩ := hb
      have hba : b = a := List.inj_on_of_nodup_map hids hbads ha hbid
      exact ⟨ha, (adMatches_iff fl a).mp (hba ▸ hbmatch)⟩
    · rintro ⟨ha, hconds⟩
      rw [applyFilters, List.mem_filter]
      refine ⟨ha, ?_⟩
      have hidmem : a.id ∈ matchingIds fl ads := by
        rw [matchingIds]
        exact List.mem_map_of_mem Ad.id
          (List.mem_filter.mpr ⟨ha, (adMatches_iff fl a).mpr hconds⟩)
      simpa [List.contains, List.elem_iff] using hidmem
  · intro vfl vads va
    rw [viewerApplyFilters, List.mem_filter]
    exact and_congr_right fun _ => viewerMatches_iff vfl va

/-- Witness for C8: with the allow-list [1] on the vertical attribute and all
other allow-lists empty, an ad with vertical 1 passes the filter. -/
theorem c8_witness :
    (⟨1, 1, 1, 1, 1, 1, 1⟩ : Ad) ∈ applyFilters ⟨[1], [], [], [], [], []⟩
      [⟨1, 1, 1, 1, 1, 1, 1⟩, ⟨2, 2, 1, 1, 1, 1, 1⟩] :=
  (c8_filter_membership_iff ⟨[1], [], [], [], [], []⟩
    [⟨1, 1, 1, 1, 1, 1, 1⟩, ⟨2, 2, 1, 1, 1, 1, 1⟩] ⟨1, 1, 1, 1, 1, 1, 1⟩
    (by decide)).1.mpr (by decide)

lemma placeGroups_length (cw cs gap bg lm msh : ℚ) (idx : ℕ) (gs : List (ℕ × ℕ)) :
    (placeGroups cw cs gap bg lm msh idx gs).length = gs.length := by
  induction gs generalizing idx with
  | nil => rfl
  | cons g rest ih => simp [placeGroups, ih]

lemma placeGroups_keys (cw cs gap bg lm msh : ℚ) (idx : ℕ) (gs : List (ℕ × ℕ)) :
    (placeGroups cw cs gap bg lm msh idx gs).map GroupPlacement.key = gs.map Prod.fst := by
  induction gs generalizing idx with
  | nil => rfl
  | cons g rest ih => simp [placeGroups, placeGroup, ih]

lemma mem_placeGroups (cw cs gap bg lm msh : ℚ) (idx : ℕ) (gs : List (ℕ × ℕ))
    (p : GroupPlacement) (hp : p ∈ placeGroups cw cs gap bg lm msh idx gs) :
    ∃ j g, g ∈ gs ∧ p = placeGroup cw cs gap bg lm msh j g.1 g.2 := by
  induction gs generalizing idx with
  | nil => simp [placeGroups] at hp
  | cons g rest ih =>
      rw [placeGroups] at hp
      rcases List.mem_cons.mp hp with h1 | h1
      · exact ⟨idx, g, List.mem_cons_self g rest, h1⟩
      · obtain ⟨j, g2, hg2, hpe⟩ := ih (idx + 1) h1
        exact ⟨j, g2, List.mem_cons_of_mem g hg2, hpe⟩

lemma placeGroup_baseline (cw cs gap bg lm msh : ℚ) (idx key count : ℕ) :
    (placeGroup cw cs gap bg lm msh idx key count).stackTopY +
      (placeGroup cw cs gap bg lm msh idx key count).blockH = msh := by
  simp only [placeGroup]
  ring

lemma placeGroup_labelTop (cw cs gap bg lm msh : ℚ) (idx key count : ℕ) :
    (placeGroup cw cs gap bg lm msh idx key count).labelTop = msh + lm := rfl

lemma placeGroup_item_bottom (cw cs gap bg lm msh : ℚ) (idx key count : ℕ)
    (hcount : 1 ≤ count) :
    groupItemY cs gap (placeGroup cw cs gap bg lm msh idx key count)
      ((placeGroup cw cs gap bg lm msh idx key count).count - 1) + cs =
      (placeGroup cw cs gap bg lm msh idx key count).stackTopY +
        (placeGroup cw cs gap bg lm msh idx key count).blockH := by
  have hcolpos : 1 ≤ groupCols cw cs gap bg := le_max_left 1 _
  have hdiv : (count - 1) / groupCols cw cs gap bg + 1 =
      gridRows count (groupCols cw cs gap bg) := by
    rw [gridRows]
    have h1 : count + groupCols cw cs gap bg - 1 = count - 1 + groupCols cw cs gap bg := by
      omega
    rw [h1, Nat.add_div_right _ (by omega)]
  have hcast : (((count - 1) / groupCols cw cs gap bg : ℕ) : ℚ) =
      ((gridRows count (groupCols cw cs gap bg) : ℕ) : ℚ) - 1 := by
    rw [← hdiv]
    push_cast
    ring
  simp only [groupItemY, placeGroup]
  rw [hcast]
  ring

lemma placeGroups_center (cw cs gap bg lm msh : ℚ) (idx : ℕ) (gs : List (ℕ × ℕ)) :
    ∀ j (hj : j < (placeGroups cw cs gap bg lm msh idx gs).length),
      ((placeGroups cw cs gap bg lm msh idx gs).get ⟨j, hj⟩).blockX +
        ((placeGroups cw cs gap bg lm msh idx gs).get ⟨j, hj⟩).blockW / 2 =
        (((idx + j : ℕ) : ℚ) + 1 / 2) * cw := by
  induction gs generalizing idx with
  | nil =>
      intro j hj
      simp [placeGroups] at hj
  | cons g rest ih =>
      intro j hj
      cases j with
      | zero =>
          show (placeGroup cw cs gap bg lm msh idx g.1 g.2).blockX +
            (placeGroup cw cs gap bg lm msh idx g.1 g.2).blockW / 2 = _
          simp only [placeGroup]
          push_cast
          ring
      | succ n =>
          have hn : n < (placeGroups cw cs gap bg lm msh (idx + 1) rest).length := by
            have := hj
            simp only [placeGroups, List.length_cons] at this
            omega
          have hrec := ih (idx + 1) n hn
          show ((placeGroups cw cs gap bg lm msh (idx + 1) rest).get ⟨n, hn⟩).blockX +
            ((placeGroups cw cs gap bg lm msh (idx + 1) rest).get ⟨n, hn⟩).blockW / 2 = _
          rw [hrec]
          congr 1
          push_cast
          ring

set_option maxHeartbeats 1000000 in
lemma groupedLayout_401 :
    applyGroupedLayout 401 50 4 60 10 [(0, 1), (1, 1)] =
      [⟨0, 1, 2, 1, 48, 4, 104, 50, 40, 64⟩, ⟨1, 1, 2, 1, 248, 4, 104, 50, 240, 64⟩] := by
  have hsort : List.insertionSort (fun a b : ℕ × ℕ => a.1 ≤ b.1) [(0, 1), (1, 1)] =
      [(0, 1), (1, 1)] := by decide
  have htn : Int.toNat 2 = 2 := rfl
  simp only [applyGroupedLayout, hsort]
  norm_num [placeGroups, placeGroup, maxStackHeight, stackHeight, groupCols, gridRows,
    List.foldl, min_def, max_def, GroupPlacement.mk.injEq, htn]

/-- C7 counterexample: the slot width is the floor of the container width
divided by the group count, not the exact quotient: with canvas width 401 and
two groups the code centers the groups at 100 and 300, multiples of the
floored slot width 200, while slots of width 401 / 2 would center the first
group at (1/2) * (401 / 2) = 401/4. -/
theorem c7_counterexample :
    ((applyGroupedLayout 401 50 4 60 10 [(0, 1), (1, 1)]).map
      fun p => p.blockX + p.blockW / 2) = [100, 300] ∧
    (100 : ℚ) ≠ (1 / 2) * (401 / 2) := by
  refine ⟨?_, by norm_num⟩
  rw [groupedLayout_401]
  norm_num

/-- C7 amended: in the grouped layout, for every set of groups: the bottom
edge of every group item block (the bottom of its last item) lies at one
common baseline, each label sits at that same baseline plus the fixed label
margin, group columns are ordered by sorted group keys, and the groups occupy
equal-width slots of width floor(containerWidth / groupCount), the group at
slot index i being centered at (i + 1/2) times that floored slot width. -/
theorem c7_amended_grouped_common_baseline
    (canvasWidth cellSize gap blockGap labelMargin : ℚ) (groups : List (ℕ × ℕ)) :
    (applyGroupedLayout canvasWidth cellSize gap blockGap labelMargin groups).length =
      groups.length ∧
    (∀ p ∈ applyGroupedLayout canvasWidth cellSize gap blockGap labelMargin groups,
      1 ≤ p.count →
        groupItemY cellSize gap p (p.count - 1) + cellSize = p.stackTopY + p.blockH) ∧
    (∀ p ∈ applyGroupedLayout canvasWidth cellSize gap blockGap labelMargin groups,
      ∀ q ∈ applyGroupedLayout canvasWidth cellSize gap blockGap labelMargin groups,
        p.stackTopY + p.blockH = q.stackTopY + q.blockH) ∧
    (∀ p ∈ applyGroupedLayout canvasWidth cellSize gap blockGap labelMargin groups,
      p.labelTop = (p.stackTopY + p.blockH) + labelMargin) ∧
    ((applyGroupedLayout canvasWidth cellSize gap blockGap labelMargin groups).map
      GroupPlacement.key).Sorted (· ≤ ·) ∧
    ∀ j (hj : j <
      (applyGroupedLayout canvasWidth cellSize gap blockGap labelMargin groups).length),
      ((applyGroupedLayout canvasWidth cellSize gap blockGap labelMargin groups).get
        ⟨j, hj⟩).blockX +
        ((applyGroupedLayout canvasWidth cellSize gap blockGap labelMargin groups).get
          ⟨j, hj⟩).blockW / 2 =
        ((j : ℚ) + 1 / 2) * ((⌊canvasWidth / (groups.length : ℚ)⌋ : ℤ) : ℚ) := by
  have hlen : (groups.insertionSort fun a b : ℕ × ℕ => a.1 ≤ b.1).length = groups.length :=
    List.length_insertionSort _ _
  constructor
  · simp only [applyGroupedLayout]
    rw [placeGroups_length, hlen]
  refine ⟨?_, ?_, ?_, ?_, ?_⟩
  · intro p hp hc
    simp only [applyGroupedLayout] at hp
    obtain ⟨j, g, _, rfl⟩ := mem_placeGroups _ _ _ _ _ _ _ _ _ hp
    exact placeGroup_item_bottom _ _ _ _ _ _ _ _ _ hc
  · intro p hp q hq
    simp only [applyGroupedLayout] at hp hq
    obtain ⟨j, g, _, rfl⟩ := mem_placeGroups _ _ _ _ _ _ _ _ _ hp
    obtain ⟨j2, g2, _, rfl⟩ := mem_placeGroups _ _ _ _ _ _ _ _ _ hq
    rw [placeGroup_baseline, placeGroup_baseline]
  · intro p hp
    simp only [applyGroupedLayout] at hp
    obtain ⟨j, g, _, rfl⟩ := mem_placeGroups _ _ _ _ _ _ _ _ _ hp
    rw [placeGroup_baseline, placeGroup_labelTop]
  · simp only [applyGroupedLayout]
    rw [placeGroups_keys]
    rw [List.Sorted, List.pairwise_map]
    exact List.sorted_insertionSort (fun a b : ℕ × ℕ => a.1 ≤ b.1) groups
  · intro j hj
    simp only [applyGroupedLayout] at hj ⊢
    have := placeGroups_center
      ((⌊canvasWidth / ((groups.insertionSort fun a b : ℕ × ℕ => a.1 ≤ b.1).length : ℚ)⌋ :
        ℤ) : ℚ)
      cellSize gap blockGap labelMargin
      (maxStackHeight
        ((⌊canvasWidth / ((groups.insertionSort fun a b : ℕ × ℕ => a.1 ≤ b.1).length : ℚ)⌋ :
          ℤ) : ℚ) cellSize gap blockGap
        ((groups.insertionSort fun a b : ℕ × ℕ => a.1 ≤ b.1).map Prod.snd))
      0 (groups.insertionSort fun a b : ℕ × ℕ => a.1 ≤ b.1) j hj
    rw [this, hlen]
    norm_num

/-- Witness for C7 amended on the two-group instance with canvas width 401:
the first group label sits at the common baseline plus the margin of 10. -/
theorem c7_witness :
    (⟨0, 1, 2, 1, 48, 4, 104, 50, 40, 64⟩ : GroupPlacement).labelTop =
      ((⟨0, 1, 2, 1, 48, 4, 104, 50, 40, 64⟩ : GroupPlacement).stackTopY +
        (⟨0, 1, 2, 1, 48, 4, 104, 50, 40, 64⟩ : GroupPlacement).blockH) + 10 :=
  (c7_amended_grouped_common_baseline 401 50 4 60 10 [(0, 1), (1, 1)]).2.2.2.1
    ⟨0, 1, 2, 1, 48, 4, 104, 50, 40, 64⟩ (by rw [groupedLayout_401]; simp)

end AdBrowser
